import Mathlib

/-!
Verification development for the `network-graph` renderer (a sigma.js-based
graph renderer). The definitions below are a shallow embedding of the
TypeScript sources: `src/core/camera.ts` (Camera) and the main `Sigma`
renderer class (display-data resolution, coordinate conversions, frame
scheduling, graph-event handlers). JavaScript numbers are modelled as
rationals (`ℚ`); `undefined`/absent object fields are modelled with
`Option`; dynamically typed attribute values are modelled with `JsVal`.
-/

namespace NG

/-- JavaScript-style falsiness for a number: `0` is falsy (NaN is not
representable in the rational embedding). `jsOrNum a b` models `a || b` on
numbers. -/
def jsOrNum (a b : ℚ) : ℚ := if a = 0 then b else a

/-! ## Camera (`src/core/camera.ts`) -/

/-- `CameraState`: the `{x, y, angle, ratio}` record. -/
structure CameraState where
  x : ℚ
  y : ℚ
  angle : ℚ
  ratio : ℚ
deriving DecidableEq, Repr

/-- `Partial<CameraState>`: each field optionally supplied. A `none` field
models an absent or non-numeric field (`typeof f === "number"` fails). -/
structure StatePatch where
  x : Option ℚ := none
  y : Option ℚ := none
  angle : Option ℚ := none
  ratio : Option ℚ := none
deriving DecidableEq, Repr

/-- The `Camera` object's mutable fields (the animation handle `nextFrame`
is omitted: no claim concerns `isAnimated`). -/
structure Camera where
  x : ℚ := 1/2
  y : ℚ := 1/2
  angle : ℚ := 0
  ratio : ℚ := 1
  minRatio : Option ℚ := none
  maxRatio : Option ℚ := none
  enabled : Bool := true
  previousState : Option CameraState := none
deriving DecidableEq, Repr

/-- `Camera#getState`: returns the current `{x, y, angle, ratio}`. -/
def Camera.getState (c : Camera) : CameraState :=
  { x := c.x, y := c.y, angle := c.angle, ratio := c.ratio }

/-- The default camera state `{x: 0.5, y: 0.5, angle: 0, ratio: 1}`. -/
def defaultCameraState : CameraState :=
  { x := 1/2, y := 1/2, angle := 0, ratio := 1 }

/-- `new Camera()`: field initializers plus the constructor body, which sets
`this.previousState = this.getState()`. -/
def newCamera : Camera :=
  let c : Camera := {}
  { c with previousState := some c.getState }

/-- `Camera#hasState`: exact field-wise equality with the given state. -/
def Camera.hasState (c : Camera) (s : CameraState) : Bool :=
  c.x = s.x && c.y = s.y && c.ratio = s.ratio && c.angle = s.angle

/-- `Camera#getPreviousState`: `null` propagated, otherwise a copy of the
stored previous state. -/
def Camera.getPreviousState (c : Camera) : Option CameraState :=
  match c.previousState with
  | none => none
  | some s => some { x := s.x, y := s.y, angle := s.angle, ratio := s.ratio }

/-- `Camera#getBoundedRatio`: `r = max(r, minRatio)` when `minRatio` is a
number, then `r = min(r, maxRatio)` when `maxRatio` is a number. -/
def Camera.getBoundedRatio (c : Camera) (ratio : ℚ) : ℚ :=
  let r := ratio
  let r := match c.minRatio with
    | some m => max r m
    | none => r
  let r := match c.maxRatio with
    | some m => min r m
    | none => r
  r

/-- `Camera#validateState`: keeps each supplied numeric field, clamping a
supplied `ratio` through `getBoundedRatio`. -/
def Camera.validateState (c : Camera) (s : StatePatch) : StatePatch :=
  { x := s.x, y := s.y, angle := s.angle,
    ratio := s.ratio.map c.getBoundedRatio }

/-- `Camera#setState`: no-op when disabled; records the pre-call state as
`previousState`, applies the validated fields, and emits one `"updated"`
notification (carrying `getState()`) when the new state differs from the
recorded previous one. Returns the updated camera and the list of emitted
`"updated"` payloads. -/
def Camera.setState (c : Camera) (s : StatePatch) : Camera × List CameraState :=
  if !c.enabled then (c, [])
  else
    let prev := c.getState
    let valid := c.validateState s
    let c' : Camera :=
      { c with
        previousState := some prev
        x := valid.x.getD c.x
        y := valid.y.getD c.y
        angle := valid.angle.getD c.angle
        ratio := valid.ratio.getD c.ratio }
    if !c'.hasState prev then (c', [c'.getState]) else (c', [])

/-- Folding a sequence of `setState` calls, keeping only the camera. -/
def Camera.setStateList (c : Camera) (l : List StatePatch) : Camera :=
  l.foldl (fun cam s => (cam.setState s).1) c

lemma hasState_getState_iff (c : Camera) (s : CameraState) :
    c.hasState s = true ↔ c.getState = s := by
  cases s with
  | mk sx sy sa sr =>
    simp only [Camera.hasState, Camera.getState, Bool.and_eq_true,
      decide_eq_true_eq, CameraState.mk.injEq]
    tauto

lemma getState_ne_of_hasState_false (c : Camera) (s : CameraState)
    (h : c.hasState s = false) : c.getState ≠ s := by
  intro hc
  rw [← hasState_getState_iff] at hc
  rw [h] at hc
  exact Bool.false_ne_true hc

lemma getState_eq_of_hasState_true (c : Camera) (s : CameraState)
    (h : c.hasState s = true) : c.getState = s :=
  (hasState_getState_iff c s).mp h

/-- Claim C1: for every enabled `Camera` and every partial state argument,
`setState` emits exactly one `"updated"` notification if and only if the
state after applying the validated fields differs (exact field-wise
equality) from the state before the call; when all validated fields equal
the current values it emits nothing. -/
theorem setState_emits_iff_changed (c : Camera) (s : StatePatch)
    (henabled : c.enabled = true) :
    (c.setState s).2 =
      if (c.setState s).1.getState = c.getState then []
      else [(c.setState s).1.getState] := by
  unfold Camera.setState
  simp only [henabled, Bool.not_true, Bool.false_eq_true, if_false,
    Bool.not_eq_true']
  split
  · rename_i hb
    have hne := getState_ne_of_hasState_false _ _ hb
    simp [hne]
  · rename_i hb
    rw [Bool.not_eq_false] at hb
    have heq := getState_eq_of_hasState_true _ _ hb
    simp [heq]

/-- Witness for C1: a concrete enabled camera and patch where the
hypothesis holds and the characterization evaluates. -/
theorem setState_emits_iff_changed_witness :
    ((newCamera.setState { x := some 2 }).2 =
      if (newCamera.setState { x := some 2 }).1.getState = newCamera.getState
      then [] else [(newCamera.setState { x := some 2 }).1.getState]) :=
  setState_emits_iff_changed newCamera { x := some 2 } (by decide)

/-! ## Sequences of `setState` calls (claim C2) -/

/-- The spec's clamp `min(max(ratio, minRatio), maxRatio)`, each bound
applied only when set (min-bound clamp first, then max-bound clamp). -/
def specBoundedRatio (minR maxR : Option ℚ) (ratio : ℚ) : ℚ :=
  let r := ratio
  let r := match minR with
    | some m => max r m
    | none => r
  let r := match maxR with
    | some m => min r m
    | none => r
  r

/-- The spec's field-wise merge of one call's valid fields over a state,
with a supplied ratio clamped to the configured bounds. -/
def mergeValid (minR maxR : Option ℚ) (st : CameraState) (s : StatePatch) :
    CameraState :=
  { x := s.x.getD st.x
    y := s.y.getD st.y
    angle := s.angle.getD st.angle
    ratio := (s.ratio.map (specBoundedRatio minR maxR)).getD st.ratio }

lemma getBoundedRatio_eq_spec (c : Camera) (r : ℚ) :
    c.getBoundedRatio r = specBoundedRatio c.minRatio c.maxRatio r := rfl

lemma setState_fst (c : Camera) (s : StatePatch) (h : c.enabled = true) :
    (c.setState s).1 =
      { c with
        previousState := some c.getState
        x := (c.validateState s).x.getD c.x
        y := (c.validateState s).y.getD c.y
        angle := (c.validateState s).angle.getD c.angle
        ratio := (c.validateState s).ratio.getD c.ratio } := by
  unfold Camera.setState
  simp only [h, Bool.not_true, Bool.false_eq_true, if_false]
  split <;> rfl

lemma setState_getState (c : Camera) (s : StatePatch) (h : c.enabled = true) :
    (c.setState s).1.getState = mergeValid c.minRatio c.maxRatio c.getState s := by
  rw [setState_fst c s h]
  cases hs : s.ratio <;>
    simp [Camera.getState, mergeValid, Camera.validateState, hs,
      getBoundedRatio_eq_spec]

lemma setState_preserves_config (c : Camera) (s : StatePatch) :
    (c.setState s).1.minRatio = c.minRatio ∧
    (c.setState s).1.maxRatio = c.maxRatio ∧
    (c.setState s).1.enabled = c.enabled := by
  unfold Camera.setState
  split
  · exact ⟨rfl, rfl, rfl⟩
  · dsimp only
    split <;> exact ⟨rfl, rfl, rfl⟩

lemma setStateList_getState (c : Camera) (l : List StatePatch)
    (h : c.enabled = true) :
    (c.setStateList l).getState =
      l.foldl (mergeValid c.minRatio c.maxRatio) c.getState := by
  induction l generalizing c with
  | nil => rfl
  | cons s t ih =>
    have hcfg := setState_preserves_config c s
    have hen : (c.setState s).1.enabled = true := by rw [hcfg.2.2]; exact h
    show ((c.setState s).1.setStateList t).getState = _
    rw [ih (c.setState s).1 hen, hcfg.1, hcfg.2.1, setState_getState c s h]
    rfl

lemma specBoundedRatio_mem (m M r : ℚ) (h : m ≤ M) :
    m ≤ specBoundedRatio (some m) (some M) r ∧
    specBoundedRatio (some m) (some M) r ≤ M := by
  unfold specBoundedRatio
  exact ⟨le_min (le_max_right r m) h, min_le_right _ _⟩

lemma foldl_merge_ratio_preserve (m M : ℚ) (h : m ≤ M) (st : CameraState)
    (hst : m ≤ st.ratio ∧ st.ratio ≤ M) (l : List StatePatch) :
    m ≤ (l.foldl (mergeValid (some m) (some M)) st).ratio ∧
    (l.foldl (mergeValid (some m) (some M)) st).ratio ≤ M := by
  induction l generalizing st with
  | nil => exact hst
  | cons s t ih =>
    refine ih (mergeValid (some m) (some M) st s) ?_
    cases hs : s.ratio with
    | none => simpa [mergeValid, hs] using hst
    | some r => simpa [mergeValid, hs] using specBoundedRatio_mem m M r h

lemma foldl_merge_ratio_mem (m M : ℚ) (h : m ≤ M) (st : CameraState)
    (l : List StatePatch) (hsome : ∃ s ∈ l, s.ratio.isSome) :
    m ≤ (l.foldl (mergeValid (some m) (some M)) st).ratio ∧
    (l.foldl (mergeValid (some m) (some M)) st).ratio ≤ M := by
  induction l generalizing st with
  | nil => simp at hsome
  | cons s t ih =>
    by_cases ht : ∃ x ∈ t, x.ratio.isSome
    · exact ih (mergeValid (some m) (some M) st s) ht
    · have hsr : s.ratio.isSome := by
        rcases hsome with ⟨x, hx, hxr⟩
        rcases List.mem_cons.mp hx with hx1 | hx2
        · rwa [← hx1]
        · exact absurd ⟨x, hx2, hxr⟩ ht
      rcases Option.isSome_iff_exists.mp hsr with ⟨r, hr⟩
      refine foldl_merge_ratio_preserve m M h _ ?_ t
      simpa [mergeValid, hr] using specBoundedRatio_mem m M r h

/-- Claim C2 (amended): after any sequence of `setState` calls on a fresh
enabled camera with configured bounds, `getState()` equals the field-wise
merge, over the default state, of the valid fields supplied by each call in
order (each supplied ratio clamped to the bounds); and the resulting ratio
lies within `[minRatio, maxRatio]` whenever both bounds are set with
`minRatio ≤ maxRatio` and at least one call supplies a numeric ratio. -/
theorem setStateList_merge_and_bounds (mr MR : Option ℚ) (l : List StatePatch) :
    (({ newCamera with minRatio := mr, maxRatio := MR } : Camera).setStateList
        l).getState =
      l.foldl (mergeValid mr MR) defaultCameraState
    ∧ (∀ m M, mr = some m → MR = some M → m ≤ M →
        (∃ s ∈ l, s.ratio.isSome) →
        m ≤ (({ newCamera with minRatio := mr, maxRatio := MR } : Camera).setStateList
              l).getState.ratio ∧
        (({ newCamera with minRatio := mr, maxRatio := MR } : Camera).setStateList
              l).getState.ratio ≤ M) := by
  have hgs : ({ newCamera with minRatio := mr, maxRatio := MR } : Camera).getState =
      defaultCameraState := rfl
  have hbase := setStateList_getState
    { newCamera with minRatio := mr, maxRatio := MR } l rfl
  rw [hgs] at hbase
  refine ⟨hbase, ?_⟩
  rintro m M rfl rfl hmM hsome
  rw [hbase]
  exact foldl_merge_ratio_mem m M hmM defaultCameraState l hsome

/-- Witness for C2: concrete bounds `[2, 3]`, one call supplying ratio 10;
the merge equation holds and the resulting ratio lies within the bounds. -/
theorem setStateList_merge_and_bounds_witness :
    (({ newCamera with minRatio := some 2, maxRatio := some 3 } : Camera).setStateList
        [{ ratio := some 10 }]).getState =
      [({ ratio := some 10 } : StatePatch)].foldl (mergeValid (some 2) (some 3))
        defaultCameraState
    ∧ 2 ≤ (({ newCamera with minRatio := some 2, maxRatio := some 3 } : Camera).setStateList
          [{ ratio := some 10 }]).getState.ratio
    ∧ (({ newCamera with minRatio := some 2, maxRatio := some 3 } : Camera).setStateList
          [{ ratio := some 10 }]).getState.ratio ≤ 3 :=
  ⟨(setStateList_merge_and_bounds (some 2) (some 3) [{ ratio := some 10 }]).1,
   ((setStateList_merge_and_bounds (some 2) (some 3) [{ ratio := some 10 }]).2
      2 3 rfl rfl (by norm_num)
      ⟨{ ratio := some 10 }, by simp, rfl⟩).1,
   ((setStateList_merge_and_bounds (some 2) (some 3) [{ ratio := some 10 }]).2
      2 3 rfl rfl (by norm_num)
      ⟨{ ratio := some 10 }, by simp, rfl⟩).2⟩

/-- Counterexample for C2 as stated: with bounds `[2, 3]` and a sequence
supplying no ratio, the final ratio is the default 1, outside the bounds;
and with inverted bounds (`maxRatio < minRatio`) a supplied ratio lands on
`maxRatio`, below `minRatio`. -/
theorem setStateList_bounds_counterexample :
    (({ newCamera with minRatio := some 2, maxRatio := some 3 } : Camera).setStateList
        [{ x := some 7 }]).getState.ratio = 1
    ∧ ¬ (2 ≤ (1 : ℚ))
    ∧ (({ newCamera with minRatio := some 3, maxRatio := some 2 } : Camera).setStateList
        [{ ratio := some 10 }]).getState.ratio = 2
    ∧ ¬ ((3 : ℚ) ≤ 2) := by
  refine ⟨?_, by norm_num, ?_, by norm_num⟩ <;>
    norm_num [Camera.setStateList, Camera.setState, Camera.validateState,
      Camera.getBoundedRatio, Camera.hasState, Camera.getState, newCamera]

/-! ## Previous state (claim C8) -/

lemma getPreviousState_some (c : Camera) (st : CameraState)
    (h : c.previousState = some st) : c.getPreviousState = some st := by
  unfold Camera.getPreviousState
  rw [h]

/-- Claim C8 (amended): `getPreviousState` never returns null: a freshly
constructed camera returns the default state, and after any `setState` call
on an enabled camera it returns the state that held immediately before that
call, whether or not the call changed the state. -/
theorem getPreviousState_spec :
    newCamera.getPreviousState = some defaultCameraState
    ∧ ∀ (c : Camera) (s : StatePatch), c.enabled = true →
        (c.setState s).1.getPreviousState = some c.getState := by
  refine ⟨rfl, ?_⟩
  intro c s h
  rw [setState_fst c s h]
  exact getPreviousState_some _ _ rfl

/-- Witness for C8: the characterization applied after one concrete call. -/
theorem getPreviousState_spec_witness :
    (newCamera.setState { x := some 1 }).1.getPreviousState =
      some newCamera.getState :=
  getPreviousState_spec.2 newCamera { x := some 1 } rfl

/-- Counterexample for C8 as stated: a fresh camera does not return null,
and after an accepted change followed by an identical (non-changing) call,
`getPreviousState` returns the state before the last call, not the state
before the last accepted change. -/
theorem getPreviousState_counterexample :
    newCamera.getPreviousState ≠ none
    ∧ ((newCamera.setState { x := some 1 }).1.setState { x := some 1 }).2 = []
    ∧ ((newCamera.setState { x := some 1 }).1.setState
        { x := some 1 }).1.getPreviousState =
        some { x := 1, y := 1/2, angle := 0, ratio := 1 }
    ∧ ((newCamera.setState { x := some 1 }).1.setState
        { x := some 1 }).1.getPreviousState ≠ some defaultCameraState := by
  refine ⟨by simp [newCamera, Camera.getPreviousState, Camera.getState], ?_, ?_, ?_⟩ <;>
    norm_num [Camera.setState, Camera.validateState, Camera.getBoundedRatio,
      Camera.hasState, Camera.getState, Camera.getPreviousState, newCamera,
      defaultCameraState]

/-! ## Ratio clamping (claim C9) -/

/-- Claim C9: `getBoundedRatio` applies the min-bound clamp first and the
max-bound clamp second, each only when its bound is a number, yielding
`min(max(ratio, minRatio), maxRatio)`; when the bounds are misconfigured
with `maxRatio < minRatio` the result equals `maxRatio` for every input. -/
theorem getBoundedRatio_spec (c : Camera) (r : ℚ) :
    c.getBoundedRatio r =
      (match c.minRatio, c.maxRatio with
       | some m, some M => min (max r m) M
       | some m, none => max r m
       | none, some M => min r M
       | none, none => r)
    ∧ (∀ m M, c.minRatio = some m → c.maxRatio = some M → M < m →
        c.getBoundedRatio r = M) := by
  constructor
  · unfold Camera.getBoundedRatio
    cases c.minRatio <;> cases c.maxRatio <;> rfl
  · intro m M hm hM hMm
    unfold Camera.getBoundedRatio
    rw [hm, hM]
    exact min_eq_right (le_of_lt (lt_of_lt_of_le hMm (le_max_right r m)))

/-- Witness for C9: inverted bounds `min = 3 > max = 2` force the result to
`maxRatio = 2` for the input 10. -/
theorem getBoundedRatio_spec_witness :
    ({ newCamera with minRatio := some 3, maxRatio := some 2 } : Camera).getBoundedRatio
        10 = 2 :=
  (getBoundedRatio_spec
      { newCamera with minRatio := some 3, maxRatio := some 2 } 10).2
    3 2 rfl rfl (by norm_num)

/-! ## Transform math and the renderer's coordinate conversions -/

/-- A 2D point, `Coordinates` in the source. -/
@[ext]
structure Vec2 where
  x : ℚ
  y : ℚ
deriving DecidableEq, Repr

/-- `Dimensions`: a `{width, height}` record. -/
structure Dimensions where
  width : ℚ
  height : ℚ
deriving DecidableEq, Repr

/-- A 2D affine transform mapping `(x, y)` to
`(a*x + b*y + tx, c*x + d*y + ty)` (the affine content of the source's 3×3
homogeneous matrices). -/
structure Affine where
  a : ℚ
  b : ℚ
  c : ℚ
  d : ℚ
  tx : ℚ
  ty : ℚ
deriving DecidableEq, Repr

def Affine.app (m : Affine) (v : Vec2) : Vec2 :=
  { x := m.a * v.x + m.b * v.y + m.tx, y := m.c * v.x + m.d * v.y + m.ty }

/-- Composition: `f.comp g` applies `g` first, then `f`. -/
def Affine.comp (f g : Affine) : Affine :=
  { a := f.a * g.a + f.b * g.c
    b := f.a * g.b + f.b * g.d
    c := f.c * g.a + f.d * g.c
    d := f.c * g.b + f.d * g.d
    tx := f.a * g.tx + f.b * g.ty + f.tx
    ty := f.c * g.tx + f.d * g.ty + f.ty }

lemma Affine.app_comp (f g : Affine) (v : Vec2) :
    (f.comp g).app v = f.app (g.app v) := by
  cases v
  simp only [Affine.app, Affine.comp, Vec2.mk.injEq]
  constructor <;> ring

/-- Translation by `(tx, ty)`. -/
def translateA (tx ty : ℚ) : Affine :=
  { a := 1, b := 0, c := 0, d := 1, tx := tx, ty := ty }

/-- Rotation with cosine `co` and sine `si`. -/
def rotA (co si : ℚ) : Affine :=
  { a := co, b := -si, c := si, d := co, tx := 0, ty := 0 }

/-- Axis scaling by `(sx, sy)`. -/
def scaleA (sx sy : ℚ) : Affine :=
  { a := sx, b := 0, c := 0, d := sy, tx := 0, ty := 0 }

/-- Modelled from the spec: `multiplyVec2` (from the `utils/matrices`
module, which is not under `src/`) applies the transform matrix to a 2D
point. -/
def multiplyVec2 (m : Affine) (v : Vec2) : Vec2 := m.app v

/-- Modelled from the spec: `matrixFromCamera` (from the `utils` module,
which is not under `src/`) composes, in order, (1) translation by
`-state.{x,y}`, (2) rotation by `-angle`, (3) uniform scale by `1/ratio`,
(4) a scale fitting the graph into the viewport minus `padding` pixels on
every side with a uniform pixel factor `k`, expressed per clip-space axis
as `2k/width` and `2k/height`. With `inverse = true` it returns the exact
algebraic inverse. The trigonometric evaluation of `angle` is abstracted
into the oracle functions `cosF`/`sinF` (its cosine and sine), since
floating-point trigonometry has no rational counterpart. -/
def matrixFromCamera (cosF sinF : ℚ → ℚ) (state : CameraState)
    (viewportDimensions graphDimensions : Dimensions) (padding : ℚ)
    (inverse : Bool) : Affine :=
  let k := min ((viewportDimensions.width - 2 * padding) / graphDimensions.width)
    ((viewportDimensions.height - 2 * padding) / graphDimensions.height)
  let co := cosF state.angle
  let si := sinF state.angle
  if inverse then
    (translateA state.x state.y).comp
      ((rotA co si).comp
        ((scaleA state.ratio state.ratio).comp
          (scaleA (viewportDimensions.width / (2 * k))
            (viewportDimensions.height / (2 * k)))))
  else
    (scaleA (2 * k / viewportDimensions.width)
        (2 * k / viewportDimensions.height)).comp
      ((scaleA (1 / state.ratio) (1 / state.ratio)).comp
        ((rotA co (-si)).comp (translateA (-state.x) (-state.y))))

lemma scale_app_scale (sx sy tx ty : ℚ) (v : Vec2) (hx : sx * tx = 1)
    (hy : sy * ty = 1) : (scaleA sx sy).app ((scaleA tx ty).app v) = v := by
  cases v with
  | mk vx vy =>
    simp only [scaleA, Affine.app, Vec2.mk.injEq]
    constructor
    · linear_combination vx * hx
    · linear_combination vy * hy

lemma rot_app_rot (co si : ℚ) (v : Vec2) (h : co ^ 2 + si ^ 2 = 1) :
    (rotA co si).app ((rotA co (-si)).app v) = v := by
  cases v with
  | mk vx vy =>
    simp only [rotA, Affine.app, Vec2.mk.injEq]
    constructor
    · linear_combination vx * h
    · linear_combination vy * h

lemma translate_app_translate (tx ty : ℚ) (v : Vec2) :
    (translateA tx ty).app ((translateA (-tx) (-ty)).app v) = v := by
  cases v
  simp only [translateA, Affine.app, Vec2.mk.injEq]
  constructor <;> ring

/-- The inverse matrix undoes the forward matrix, pointwise. -/
lemma matrixFromCamera_roundtrip (cosF sinF : ℚ → ℚ) (st : CameraState)
    (vd gd : Dimensions) (p : ℚ) (v : Vec2)
    (huc : (cosF st.angle) ^ 2 + (sinF st.angle) ^ 2 = 1)
    (hr : st.ratio ≠ 0)
    (hk : min ((vd.width - 2 * p) / gd.width) ((vd.height - 2 * p) / gd.height) ≠ 0)
    (hw : vd.width ≠ 0) (hh : vd.height ≠ 0) :
    (matrixFromCamera cosF sinF st vd gd p true).app
      ((matrixFromCamera cosF sinF st vd gd p false).app v) = v := by
  simp only [matrixFromCamera, if_true, Bool.false_eq_true, if_false,
    Affine.app_comp]
  generalize hK : min ((vd.width - 2 * p) / gd.width)
    ((vd.height - 2 * p) / gd.height) = K at hk ⊢
  rw [scale_app_scale (vd.width / (2 * K)) (vd.height / (2 * K))
    (2 * K / vd.width) (2 * K / vd.height) _ (by field_simp)
    (by field_simp)]
  rw [scale_app_scale st.ratio st.ratio (1 / st.ratio) (1 / st.ratio) _
    (by field_simp) (by field_simp)]
  rw [rot_app_rot _ _ _ huc]
  exact translate_app_translate _ _ _

/-! ## The Sigma renderer's conversion state -/

/-- An `Extent` pair per axis: the `{x: [min, max], y: [min, max]}` box. -/
structure Extent2 where
  xMin : ℚ
  xMax : ℚ
  yMin : ℚ
  yMax : ℚ
deriving DecidableEq, Repr

/-- The fields of the `Sigma` renderer that feed coordinate conversions:
the camera's current state (with its trigonometric oracle), the container
dimensions, the node extent and optional custom bounding box, the
`stagePadding` setting, and the cached forward/inverse matrices recomputed
by `render`. -/
structure SigmaR where
  cosF : ℚ → ℚ
  sinF : ℚ → ℚ
  cameraState : CameraState
  width : ℚ
  height : ℚ
  nodeExtent : Extent2
  customBBox : Option Extent2
  stagePadding : ℚ
  matrix : Affine
  invMatrix : Affine

/-- `Sigma#getDimensions`: `{width: this.width, height: this.height}`. -/
def SigmaR.getDimensions (r : SigmaR) : Dimensions :=
  { width := r.width, height := r.height }

/-- `Sigma#getGraphDimensions`: extent is `customBBox || nodeExtent`; each
dimension is `max - min || 1` (JavaScript `||`: a zero difference falls
back to 1). -/
def SigmaR.getGraphDimensions (r : SigmaR) : Dimensions :=
  let extent := r.customBBox.getD r.nodeExtent
  { width := jsOrNum (extent.xMax - extent.xMin) 1
    height := jsOrNum (extent.yMax - extent.yMin) 1 }

/-- `CoordinateConversionOverride`: optional overrides for conversions. -/
structure ConversionOverride where
  cameraState : Option CameraState := none
  viewportDimensions : Option Dimensions := none
  graphDimensions : Option Dimensions := none
  padding : Option ℚ := none
  matrix : Option Affine := none

/-- `Sigma#framedGraphToViewport`: recomputes the matrix when the override
carries a camera state, viewport dimensions or graph dimensions
(`!!override.graphDimensions`), uses an overridden matrix verbatim, and
falls back to the cached `this.matrix` otherwise. `override.padding ||
stagePadding || 0` is JavaScript `||` on numbers. -/
def SigmaR.framedGraphToViewport (r : SigmaR) (coordinates : Vec2)
    (override : ConversionOverride) : Vec2 :=
  let recomputeMatrix := override.cameraState.isSome ||
    override.viewportDimensions.isSome || override.graphDimensions.isSome
  let matrix := match override.matrix with
    | some m => m
    | none =>
      if recomputeMatrix then
        matrixFromCamera r.cosF r.sinF
          (override.cameraState.getD r.cameraState)
          (override.viewportDimensions.getD r.getDimensions)
          (override.graphDimensions.getD r.getGraphDimensions)
          (jsOrNum (override.padding.getD 0) r.stagePadding) false
      else r.matrix
  let viewportPos := multiplyVec2 matrix coordinates
  { x := (1 + viewportPos.x) * r.width / 2
    y := (1 - viewportPos.y) * r.height / 2 }

/-- `Sigma#viewportToFramedGraph`: recomputes the inverse matrix when the
override carries a camera state, viewport dimensions, or — as written in
the source — when it does NOT carry graph dimensions
(`!override.graphDimensions`, a single bang, unlike the double bang in
`framedGraphToViewport`); uses an overridden matrix verbatim, and falls
back to the cached `this.invMatrix` otherwise. The final `isNaN` coercion
to 0 is the identity over rationals, which have no NaN. -/
def SigmaR.viewportToFramedGraph (r : SigmaR) (coordinates : Vec2)
    (override : ConversionOverride) : Vec2 :=
  let recomputeMatrix := override.cameraState.isSome ||
    override.viewportDimensions.isSome || override.graphDimensions.isNone
  let invMatrix := match override.matrix with
    | some m => m
    | none =>
      if recomputeMatrix then
        matrixFromCamera r.cosF r.sinF
          (override.cameraState.getD r.cameraState)
          (override.viewportDimensions.getD r.getDimensions)
          (override.graphDimensions.getD r.getGraphDimensions)
          (jsOrNum (override.padding.getD 0) r.stagePadding) true
      else r.invMatrix
  multiplyVec2 invMatrix
    { x := coordinates.x / r.width * 2 - 1
      y := 1 - coordinates.y / r.height * 2 }

/-- Claim C3: with the renderer's matrices derived from its current camera
state, viewport dimensions, graph dimensions and padding, the two
conversions round-trip: `viewportToFramedGraph(framedGraphToViewport(p)) = p`
for every point and every camera state (any rotation `angle` through its
cosine/sine, any nonzero ratio), exactly over rationals. -/
theorem conversions_roundtrip (r : SigmaR) (pt : Vec2)
    (huc : (r.cosF r.cameraState.angle) ^ 2 + (r.sinF r.cameraState.angle) ^ 2 = 1)
    (hr : r.cameraState.ratio ≠ 0)
    (hm : r.matrix = matrixFromCamera r.cosF r.sinF r.cameraState
      r.getDimensions r.getGraphDimensions r.stagePadding false)
    (hgw : 0 < r.getGraphDimensions.width)
    (hgh : 0 < r.getGraphDimensions.height)
    (hp : 0 ≤ r.stagePadding)
    (hpw : 2 * r.stagePadding < r.width)
    (hph : 2 * r.stagePadding < r.height) :
    r.viewportToFramedGraph (r.framedGraphToViewport pt {}) {} = pt := by
  have hw : r.width ≠ 0 := by
    have : (0 : ℚ) < r.width := lt_of_le_of_lt (by linarith) hpw
    exact ne_of_gt this
  have hh : r.height ≠ 0 := by
    have : (0 : ℚ) < r.height := lt_of_le_of_lt (by linarith) hph
    exact ne_of_gt this
  have hk : min ((r.getDimensions.width - 2 * r.stagePadding) /
        r.getGraphDimensions.width)
      ((r.getDimensions.height - 2 * r.stagePadding) /
        r.getGraphDimensions.height) ≠ 0 := by
    have h1 : (0 : ℚ) <
        (r.getDimensions.width - 2 * r.stagePadding) / r.getGraphDimensions.width :=
      div_pos (by simp [SigmaR.getDimensions]; linarith) hgw
    have h2 : (0 : ℚ) <
        (r.getDimensions.height - 2 * r.stagePadding) / r.getGraphDimensions.height :=
      div_pos (by simp [SigmaR.getDimensions]; linarith) hgh
    exact ne_of_gt (lt_min h1 h2)
  unfold SigmaR.viewportToFramedGraph SigmaR.framedGraphToViewport
  simp only [Option.isSome_none, Option.isNone_none, Bool.or_false,
    Bool.false_or, Bool.or_true, if_true, Bool.false_eq_true, if_false,
    Option.getD_none]
  have hpad : jsOrNum 0 r.stagePadding = r.stagePadding := by
    simp [jsOrNum]
  rw [hpad]
  have hx : (1 + (multiplyVec2 r.matrix pt).x) * r.width / 2 / r.width * 2 - 1 =
      (multiplyVec2 r.matrix pt).x := by field_simp; ring
  have hy : 1 - (1 - (multiplyVec2 r.matrix pt).y) * r.height / 2 / r.height * 2 =
      (multiplyVec2 r.matrix pt).y := by field_simp; ring
  rw [hx, hy]
  rw [hm]
  exact matrixFromCamera_roundtrip r.cosF r.sinF r.cameraState r.getDimensions
    r.getGraphDimensions r.stagePadding pt huc hr hk hw hh

/-- A concrete renderer with a rotated, zoomed camera (cosine 3/5, sine
4/5, ratio 2) whose cached matrices are derived from its current state. -/
def rendererC3 : SigmaR :=
  { cosF := fun _ => 3/5
    sinF := fun _ => 4/5
    cameraState := { x := 1, y := 2, angle := 1, ratio := 2 }
    width := 100
    height := 50
    nodeExtent := { xMin := 0, xMax := 4, yMin := 0, yMax := 5 }
    customBBox := none
    stagePadding := 10
    matrix := matrixFromCamera (fun _ => 3/5) (fun _ => 4/5)
      { x := 1, y := 2, angle := 1, ratio := 2 } { width := 100, height := 50 }
      { width := 4, height := 5 } 10 false
    invMatrix := matrixFromCamera (fun _ => 3/5) (fun _ => 4/5)
      { x := 1, y := 2, angle := 1, ratio := 2 } { width := 100, height := 50 }
      { width := 4, height := 5 } 10 true }

/-- Witness for C3: the round-trip at the concrete rotated renderer. -/
theorem conversions_roundtrip_witness :
    rendererC3.viewportToFramedGraph
      (rendererC3.framedGraphToViewport ⟨7, 11⟩ {}) {} = ⟨7, 11⟩ :=
  conversions_roundtrip rendererC3 ⟨7, 11⟩
    (by norm_num [rendererC3])
    (by norm_num [rendererC3])
    (by norm_num [rendererC3, SigmaR.getGraphDimensions, SigmaR.getDimensions,
      jsOrNum])
    (by norm_num [rendererC3, SigmaR.getGraphDimensions, jsOrNum])
    (by norm_num [rendererC3, SigmaR.getGraphDimensions, jsOrNum])
    (by norm_num [rendererC3])
    (by norm_num [rendererC3])
    (by norm_num [rendererC3])

/-- A concrete renderer used to exercise the graph-dimensions override:
identity-like camera, 2×2 viewport, unit graph box, no padding. -/
def rendererC4 : SigmaR :=
  { cosF := fun _ => 1
    sinF := fun _ => 0
    cameraState := defaultCameraState
    width := 2
    height := 2
    nodeExtent := { xMin := 0, xMax := 1, yMin := 0, yMax := 1 }
    customBBox := none
    stagePadding := 0
    matrix := matrixFromCamera (fun _ => 1) (fun _ => 0) defaultCameraState
      { width := 2, height := 2 } { width := 1, height := 1 } 0 false
    invMatrix := matrixFromCamera (fun _ => 1) (fun _ => 0) defaultCameraState
      { width := 2, height := 2 } { width := 1, height := 1 } 0 true }

/-- Claim C4 is violated by the code: a `viewportToFramedGraph` call whose
override specifies only graph dimensions falls into the cached-matrix
branch (the source tests `!override.graphDimensions` instead of
`!!override.graphDimensions`), so the conversion returns the
cached-inverse-matrix result `(1, 1)` instead of the result `(4, 4)` that
a matrix derived from the overridden graph dimensions `{width: 5,
height: 7}` would give. -/
theorem viewportToFramedGraph_ignores_graphDims_override :
    rendererC4.viewportToFramedGraph ⟨2, 0⟩
        { graphDimensions := some ⟨5, 7⟩ } = ⟨1, 1⟩
    ∧ multiplyVec2 (matrixFromCamera rendererC4.cosF rendererC4.sinF
        rendererC4.cameraState rendererC4.getDimensions ⟨5, 7⟩
        rendererC4.stagePadding true) ⟨1, 1⟩ = ⟨4, 4⟩
    ∧ (⟨1, 1⟩ : Vec2) ≠ ⟨4, 4⟩ := by
  refine ⟨?_, ?_, by simp⟩ <;>
    norm_num [rendererC4, SigmaR.viewportToFramedGraph, SigmaR.getDimensions,
      SigmaR.getGraphDimensions, matrixFromCamera, multiplyVec2, Affine.app,
      Affine.comp, translateA, rotA, scaleA, defaultCameraState, jsOrNum,
      min_def, Vec2.mk.injEq]

/-- Claim C10: `getGraphDimensions` never returns a zero width or height:
a degenerate axis extent (max equal to min) yields 1, and otherwise the
dimension is exactly max minus min. -/
theorem getGraphDimensions_nonzero (r : SigmaR) :
    (r.getGraphDimensions.width ≠ 0 ∧ r.getGraphDimensions.height ≠ 0)
    ∧ ((r.customBBox.getD r.nodeExtent).xMax = (r.customBBox.getD r.nodeExtent).xMin →
        r.getGraphDimensions.width = 1)
    ∧ ((r.customBBox.getD r.nodeExtent).xMax ≠ (r.customBBox.getD r.nodeExtent).xMin →
        r.getGraphDimensions.width =
          (r.customBBox.getD r.nodeExtent).xMax - (r.customBBox.getD r.nodeExtent).xMin)
    ∧ ((r.customBBox.getD r.nodeExtent).yMax = (r.customBBox.getD r.nodeExtent).yMin →
        r.getGraphDimensions.height = 1)
    ∧ ((r.customBBox.getD r.nodeExtent).yMax ≠ (r.customBBox.getD r.nodeExtent).yMin →
        r.getGraphDimensions.height =
          (r.customBBox.getD r.nodeExtent).yMax - (r.customBBox.getD r.nodeExtent).yMin) := by
  unfold SigmaR.getGraphDimensions
  set e := r.customBBox.getD r.nodeExtent with he
  refine ⟨⟨?_, ?_⟩, ?_, ?_, ?_, ?_⟩
  · by_cases h : e.xMax - e.xMin = 0 <;> simp [jsOrNum, h]
  · by_cases h : e.yMax - e.yMin = 0 <;> simp [jsOrNum, h]
  · intro h
    simp [jsOrNum, sub_eq_zero.mpr h]
  · intro h
    simp [jsOrNum, sub_ne_zero.mpr h]
  · intro h
    simp [jsOrNum, sub_eq_zero.mpr h]
  · intro h
    simp [jsOrNum, sub_ne_zero.mpr h]

/-- A renderer whose x-extent is degenerate and whose y-extent spans 3. -/
def rendererC10 : SigmaR :=
  { cosF := fun _ => 1
    sinF := fun _ => 0
    cameraState := defaultCameraState
    width := 2
    height := 2
    nodeExtent := { xMin := 5, xMax := 5, yMin := 0, yMax := 3 }
    customBBox := none
    stagePadding := 0
    matrix := translateA 0 0
    invMatrix := translateA 0 0 }

/-- Witness for C10: the degenerate x-extent gets width 1 and the
non-degenerate y-extent gets height `3 - 0`. -/
theorem getGraphDimensions_nonzero_witness :
    rendererC10.getGraphDimensions.width = 1
    ∧ rendererC10.getGraphDimensions.height = 3 - 0 :=
  ⟨(getGraphDimensions_nonzero rendererC10).2.1 rfl,
   (getGraphDimensions_nonzero rendererC10).2.2.2.2 (by norm_num [rendererC10])⟩

/-! ## Display-data resolution for nodes (`applyNodeDefaults`) -/

/-- A dynamically typed JavaScript attribute value (NaN is not
representable in the rational embedding). -/
inductive JsVal where
  | num (q : ℚ)
  | str (s : String)
  | boolean (b : Bool)
  | null
  | undef
deriving DecidableEq, Repr

/-- JavaScript truthiness of a value. -/
def JsVal.truthy : JsVal → Bool
  | JsVal.num q => q ≠ 0
  | JsVal.str s => s ≠ ""
  | JsVal.boolean b => b
  | JsVal.null => false
  | JsVal.undef => false

/-- JavaScript stringification `"" + v`. -/
def JsVal.toStr : JsVal → String
  | JsVal.num q => toString q
  | JsVal.str s => s
  | JsVal.boolean b => if b then "true" else "false"
  | JsVal.null => "null"
  | JsVal.undef => "undefined"

/-- Reading an object property: an absent property reads as `undefined`
(`hasOwnProperty` is `Option.isSome` on the field). -/
def jget (o : Option JsVal) : JsVal := o.getD JsVal.undef

/-- `Partial<NodeDisplayData>`: a node's raw (or reducer-produced)
attribute record; `none` models an absent property. -/
structure RawNodeData where
  x : Option JsVal := none
  y : Option JsVal := none
  color : Option JsVal := none
  label : Option JsVal := none
  size : Option JsVal := none
  hidden : Option JsVal := none
  highlighted : Option JsVal := none
  forceLabel : Option JsVal := none
  type : Option JsVal := none
  zIndex : Option JsVal := none
deriving DecidableEq, Repr

/-- `NodeDisplayData` as produced by `applyNodeDefaults`: every field
present (the label is a string or `null`). -/
structure NodeData where
  x : JsVal
  y : JsVal
  color : JsVal
  label : Option String
  size : JsVal
  hidden : JsVal
  highlighted : JsVal
  forceLabel : JsVal
  type : JsVal
  zIndex : JsVal
deriving DecidableEq, Repr

/-- The settings fields read by `applyNodeDefaults`. -/
structure NodeSettings where
  defaultNodeColor : String := "#999"
  defaultNodeType : String := "circle"
deriving DecidableEq, Repr

/-- `applyNodeDefaults`: throws when the record lacks an own `x` or `y`
property (`!data.hasOwnProperty("x") || !data.hasOwnProperty("y")`),
otherwise fills every missing/falsy field with its default and returns the
completed record. -/
def applyNodeDefaults (settings : NodeSettings) (key : String)
    (data : RawNodeData) : Except String NodeData :=
  if !data.x.isSome || !data.y.isSome then
    Except.error
      ("Sigma: could not find a valid position (x, y) for node " ++ key ++
        ". All your nodes must have a number x and y.")
  else
    let color := if !(jget data.color).truthy then
        JsVal.str settings.defaultNodeColor
      else jget data.color
    let label0 := jget data.label
    let label1 := if !label0.truthy && label0 ≠ JsVal.str "" then JsVal.null
      else label0
    let label := if label1 ≠ JsVal.undef && label1 ≠ JsVal.null then
        some label1.toStr
      else none
    let size := if !(jget data.size).truthy then JsVal.num 2
      else jget data.size
    let hidden := match data.hidden with
      | some v => v
      | none => JsVal.boolean false
    let highlighted := match data.highlighted with
      | some v => v
      | none => JsVal.boolean false
    let forceLabel := match data.forceLabel with
      | some v => v
      | none => JsVal.boolean false
    let nodeType := if !(jget data.type).truthy || jget data.type = JsVal.str ""
      then JsVal.str settings.defaultNodeType
      else jget data.type
    let zIndex := if !(jget data.zIndex).truthy then JsVal.num 0
      else jget data.zIndex
    Except.ok
      { x := jget data.x, y := jget data.y, color := color, label := label,
        size := size, hidden := hidden, highlighted := highlighted,
        forceLabel := forceLabel, type := nodeType, zIndex := zIndex }

/-- The optional `nodeReducer` step of `Sigma#process`: when configured its
return value fully replaces the raw attributes. -/
def applyNodeReducer (reducer : Option (String → RawNodeData → RawNodeData))
    (key : String) (attr : RawNodeData) : RawNodeData :=
  match reducer with
  | some f => f key attr
  | none => attr

/-- One node's display-data resolution inside `Sigma#process`: reducer,
then defaults. -/
def processNode (settings : NodeSettings)
    (reducer : Option (String → RawNodeData → RawNodeData)) (key : String)
    (attr : RawNodeData) : Except String NodeData :=
  applyNodeDefaults settings key (applyNodeReducer reducer key attr)

/-- The node loop of `Sigma#process`: nodes are resolved in order and the
first thrown error aborts the loop and propagates. -/
def processNodes (settings : NodeSettings)
    (reducer : Option (String → RawNodeData → RawNodeData)) :
    List (String × RawNodeData) → Except String (List (String × NodeData))
  | [] => Except.ok []
  | kv :: rest =>
    match processNode settings reducer kv.1 kv.2 with
    | Except.error e => Except.error e
    | Except.ok d =>
      match processNodes settings reducer rest with
      | Except.error e => Except.error e
      | Except.ok ds => Except.ok ((kv.1, d) :: ds)

lemma applyNodeDefaults_ok_iff (settings : NodeSettings) (key : String)
    (data : RawNodeData) :
    (∃ d, applyNodeDefaults settings key data = Except.ok d) ↔
      data.x.isSome ∧ data.y.isSome := by
  unfold applyNodeDefaults
  by_cases hx : data.x.isSome <;> by_cases hy : data.y.isSome <;>
    simp [hx, hy]

/-- Claim C6 (amended): node display-data resolution (reducer then
`applyNodeDefaults`) raises a synchronous error exactly when the
reducer-applied record lacks an own `x` or `y` property (presence is
checked, not numeric type); in particular every record carrying numeric
`x` and `y` resolves to a complete record preserving them, and a record
lacking one of the properties makes the processing loop propagate an
error to the caller. -/
theorem processNode_position_check (settings : NodeSettings)
    (reducer : Option (String → RawNodeData → RawNodeData)) (key : String)
    (attr : RawNodeData) :
    ((∃ d, processNode settings reducer key attr = Except.ok d) ↔
      (applyNodeReducer reducer key attr).x.isSome ∧
        (applyNodeReducer reducer key attr).y.isSome)
    ∧ (∀ qx qy, (applyNodeReducer reducer key attr).x = some (JsVal.num qx) →
        (applyNodeReducer reducer key attr).y = some (JsVal.num qy) →
        ∃ d, processNode settings reducer key attr = Except.ok d ∧
          d.x = JsVal.num qx ∧ d.y = JsVal.num qy)
    ∧ (∀ (pre post : List (String × RawNodeData)),
        ¬((applyNodeReducer reducer key attr).x.isSome ∧
          (applyNodeReducer reducer key attr).y.isSome) →
        ∃ msg, processNodes settings reducer (pre ++ (key, attr) :: post) =
          Except.error msg) := by
  refine ⟨applyNodeDefaults_ok_iff settings key (applyNodeReducer reducer key attr), ?_, ?_⟩
  · intro qx qy hqx hqy
    unfold processNode applyNodeDefaults
    simp [hqx, hqy, jget]
  · intro pre post hmiss
    have herr : ∃ msg, processNode settings reducer key attr = Except.error msg := by
      rcases h : processNode settings reducer key attr with msg | d
      · exact ⟨msg, rfl⟩
      · exact absurd ((applyNodeDefaults_ok_iff settings key
          (applyNodeReducer reducer key attr)).mp ⟨d, h⟩) hmiss
    induction pre with
    | nil =>
      rcases herr with ⟨msg, hmsg⟩
      exact ⟨msg, by simp [processNodes, hmsg]⟩
    | cons kv rest ih =>
      rcases ih with ⟨msg, hmsg⟩
      show ∃ m, processNodes settings reducer (kv :: (rest ++ (key, attr) :: post)) =
        Except.error m
      unfold processNodes
      rcases hhd : processNode settings reducer kv.1 kv.2 with e | d
      · exact ⟨e, rfl⟩
      · rw [hmsg]
        exact ⟨msg, rfl⟩

/-- Witness for C6: a record with numeric position resolves and keeps it;
a record missing `y` aborts a one-node processing loop. -/
theorem processNode_position_check_witness :
    (∃ d, processNode {} none "n"
        { x := some (JsVal.num 3), y := some (JsVal.num 4) } = Except.ok d ∧
      d.x = JsVal.num 3 ∧ d.y = JsVal.num 4)
    ∧ (∃ msg, processNodes {} none
        [("m", { x := some (JsVal.num 3) })] = Except.error msg) :=
  ⟨(processNode_position_check {} none "n"
      { x := some (JsVal.num 3), y := some (JsVal.num 4) }).2.1 3 4 rfl rfl,
   by
    have h := (processNode_position_check {} none "m"
      { x := some (JsVal.num 3) }).2.2 [] [] (by simp [applyNodeReducer])
    simpa using h⟩

/-- Counterexample for C6 as stated: a node whose `x` is the string
`"foo"` (present but not numeric) resolves without error, although the
claim demands an error for every record lacking a numeric `x`. -/
theorem nodeDefaults_nonNumeric_counterexample :
    (∃ d, applyNodeDefaults {} "n"
        { x := some (JsVal.str "foo"), y := some (JsVal.num 3) } =
          Except.ok d)
    ∧ (∀ q : ℚ, JsVal.str "foo" ≠ JsVal.num q) := by
  constructor
  · rw [applyNodeDefaults_ok_iff]
    simp
  · intro q
    simp

/-! ## Frame scheduling and graph-event handlers -/

/-- The renderer state touched by scheduling and the graph handlers: the
pending-frame token (`renderFrame`), the dirty flags, a source of fresh
animation-frame tokens (browser ids are nonzero, so tokens start at 1),
instrumentation counters for reprocess/render executions, and the node
cache with the hovered-node reference. -/
structure SigmaState where
  renderFrame : Option ℕ := none
  needToProcess : Bool := false
  needToSoftProcess : Bool := false
  nextToken : ℕ := 1
  processCount : ℕ := 0
  softProcessCount : ℕ := 0
  renderCount : ℕ := 0
  nodeDataCache : String → Option NodeData := fun _ => none
  hoveredNode : Option String := none

/-- `Sigma#_scheduleRefresh`: requests a frame only when none is pending
(`if (!this.renderFrame)`). Returns the new state and the number of frame
tokens requested (0 or 1). -/
def scheduleRefreshInternal (s : SigmaState) : SigmaState × ℕ :=
  match s.renderFrame with
  | none =>
    ({ s with renderFrame := some s.nextToken, nextToken := s.nextToken + 1 }, 1)
  | some _ => (s, 0)

/-- `Sigma#scheduleRefresh`: sets `needToProcess` and delegates to
`_scheduleRefresh`. -/
def scheduleRefresh (s : SigmaState) : SigmaState × ℕ :=
  scheduleRefreshInternal { s with needToProcess := true }

/-- The `graphUpdate` graph-event listener: same body as
`scheduleRefresh` (`needToProcess = true; _scheduleRefresh()`). -/
def graphUpdateHandler (s : SigmaState) : SigmaState × ℕ :=
  scheduleRefreshInternal { s with needToProcess := true }

/-- `n` successive `scheduleRefresh` calls within one tick (no frame fires
in between), accumulating the number of frame tokens requested. -/
def runScheduleRefresh : ℕ → SigmaState → SigmaState × ℕ
  | 0, s => (s, 0)
  | n + 1, s =>
    ((runScheduleRefresh n (scheduleRefresh s).1).1,
      (scheduleRefresh s).2 + (runScheduleRefresh n (scheduleRefresh s).1).2)

/-- `Sigma#render`, restricted to the scheduling-visible effects: a pending
frame is cancelled and the dirty flags cleared, and one render execution is
counted (canvas and matrix work is out of the modelled state). -/
def render (s : SigmaState) : SigmaState :=
  let s1 := if s.renderFrame.isSome then
      { s with
        renderFrame := none
        needToProcess := false
        needToSoftProcess := false }
    else s
  { s1 with renderCount := s1.renderCount + 1 }

/-- `Sigma#_refresh`: full reprocess when `needToProcess`, else soft
reprocess when `needToSoftProcess`; reset both flags; render. -/
def refreshInternal (s : SigmaState) : SigmaState :=
  let s1 := if s.needToProcess then
      { s with processCount := s.processCount + 1 }
    else if s.needToSoftProcess then
      { s with softProcessCount := s.softProcessCount + 1 }
    else s
  render { s1 with needToProcess := false, needToSoftProcess := false }

/-- The requested frame firing: the stored callback runs `_refresh()` and
then clears `this.renderFrame`. -/
def fireFrame (s : SigmaState) : SigmaState :=
  { refreshInternal s with renderFrame := none }

lemma scheduleRefreshInternal_pending (s : SigmaState)
    (h : s.renderFrame.isSome) : scheduleRefreshInternal s = (s, 0) := by
  unfold scheduleRefreshInternal
  rcases hs : s.renderFrame with _ | t
  · rw [hs] at h
    simp at h
  · rfl

lemma scheduleRefreshInternal_free (s : SigmaState)
    (h : s.renderFrame = none) :
    scheduleRefreshInternal s =
      ({ s with renderFrame := some s.nextToken,
                nextToken := s.nextToken + 1 }, 1) := by
  unfold scheduleRefreshInternal
  rw [h]

lemma scheduleRefresh_pending (s : SigmaState) (h : s.renderFrame.isSome) :
    scheduleRefresh s = ({ s with needToProcess := true }, 0) := by
  unfold scheduleRefresh
  exact scheduleRefreshInternal_pending _ h

lemma scheduleRefresh_free (s : SigmaState) (h : s.renderFrame = none) :
    scheduleRefresh s =
      ({ s with needToProcess := true,
                renderFrame := some s.nextToken,
                nextToken := s.nextToken + 1 }, 1) := by
  unfold scheduleRefresh
  rw [scheduleRefreshInternal_free { s with needToProcess := true } h]

lemma runScheduleRefresh_pending (n : ℕ) (s : SigmaState)
    (h : s.renderFrame.isSome) (hn : n ≠ 0) :
    runScheduleRefresh n s = ({ s with needToProcess := true }, 0) := by
  induction n generalizing s with
  | zero => exact absurd rfl hn
  | succ m ih =>
    have ihm := fun hm => ih { s with needToProcess := true } h hm
    by_cases hm : m = 0
    · subst hm
      simp [runScheduleRefresh, scheduleRefresh_pending s h]
    · simp [runScheduleRefresh, scheduleRefresh_pending s h, ihm hm]

/-- Claim C5: at most one frame is ever pending: from a state with no
pending frame, any number `n ≥ 1` of same-tick `scheduleRefresh` calls
requests exactly one frame token; when that frame fires, exactly one
reprocess and one render execute and the pending token is cleared; and
scheduling (`_scheduleRefresh`) while a frame is pending is a no-op that
requests nothing. -/
theorem scheduleRefresh_coalesces (s : SigmaState) (n : ℕ) (hn : 1 ≤ n)
    (hfree : s.renderFrame = none) :
    (runScheduleRefresh n s).2 = 1
    ∧ (runScheduleRefresh n s).1.renderFrame = some s.nextToken
    ∧ (fireFrame (runScheduleRefresh n s).1).processCount = s.processCount + 1
    ∧ (fireFrame (runScheduleRefresh n s).1).renderCount = s.renderCount + 1
    ∧ (fireFrame (runScheduleRefresh n s).1).renderFrame = none
    ∧ (∀ s2 : SigmaState, s2.renderFrame.isSome →
        scheduleRefreshInternal s2 = (s2, 0)) := by
  rcases n with _ | m
  · exact absurd hn (by norm_num)
  have hfirst := scheduleRefresh_free s hfree
  have hrun : runScheduleRefresh (m + 1) s =
      ({ s with needToProcess := true,
                renderFrame := some s.nextToken,
                nextToken := s.nextToken + 1 }, 1) := by
    by_cases hm : m = 0
    · subst hm
      simp [runScheduleRefresh, hfirst]
    · have hpend := runScheduleRefresh_pending m
        { s with needToProcess := true,
                 renderFrame := some s.nextToken,
                 nextToken := s.nextToken + 1 } (by simp) hm
      simp [runScheduleRefresh, hfirst, hpend]
  rw [hrun]
  refine ⟨rfl, rfl, ?_, ?_, ?_, fun s2 h => scheduleRefreshInternal_pending s2 h⟩ <;>
    simp [fireFrame, refreshInternal, render]

/-- Witness for C5: two `scheduleRefresh` calls on a fresh renderer state
request one frame and firing it yields one reprocess and one render. -/
theorem scheduleRefresh_coalesces_witness :
    (runScheduleRefresh 2 ({} : SigmaState)).2 = 1
    ∧ (fireFrame (runScheduleRefresh 2 ({} : SigmaState)).1).processCount =
        ({} : SigmaState).processCount + 1
    ∧ (fireFrame (runScheduleRefresh 2 ({} : SigmaState)).1).renderCount =
        ({} : SigmaState).renderCount + 1 :=
  ⟨(scheduleRefresh_coalesces {} 2 (by norm_num) rfl).1,
   (scheduleRefresh_coalesces {} 2 (by norm_num) rfl).2.2.1,
   (scheduleRefresh_coalesces {} 2 (by norm_num) rfl).2.2.2.1⟩

/-- The `dropNodeGraphUpdate` graph-event listener: deletes the dropped
node's cache entry, clears the hovered-node reference when it was the
dropped node, then runs the `graphUpdate` listener (mark full dirty and
schedule). -/
def dropNodeGraphUpdate (s : SigmaState) (key : String) : SigmaState × ℕ :=
  let s1 := { s with
    nodeDataCache := fun k => if k = key then none else s.nodeDataCache k
    hoveredNode := if s.hoveredNode = some key then none else s.hoveredNode }
  graphUpdateHandler s1

lemma scheduleRefreshInternal_cache (s : SigmaState) :
    (scheduleRefreshInternal s).1.nodeDataCache = s.nodeDataCache ∧
    (scheduleRefreshInternal s).1.hoveredNode = s.hoveredNode := by
  unfold scheduleRefreshInternal
  rcases hs : s.renderFrame with _ | t <;> exact ⟨rfl, rfl⟩

/-- Claim C7: handling a node-dropped event for `A` removes exactly `A`'s
display-data cache entry, nulls the hovered-node reference iff it was `A`,
and leaves every other node's cached entry untouched — the handler itself
performs no reprocess of other nodes. -/
theorem dropNode_targets_only_dropped (s : SigmaState) (A : String) :
    (dropNodeGraphUpdate s A).1.nodeDataCache A = none
    ∧ ((dropNodeGraphUpdate s A).1.hoveredNode =
        if s.hoveredNode = some A then none else s.hoveredNode)
    ∧ (∀ B, B ≠ A →
        (dropNodeGraphUpdate s A).1.nodeDataCache B = s.nodeDataCache B)
    ∧ (dropNodeGraphUpdate s A).1.processCount = s.processCount
    ∧ (dropNodeGraphUpdate s A).1.softProcessCount = s.softProcessCount := by
  unfold dropNodeGraphUpdate graphUpdateHandler
  set s1 : SigmaState := { s with
    nodeDataCache := fun k => if k = A then none else s.nodeDataCache k
    hoveredNode := if s.hoveredNode = some A then none else s.hoveredNode,
    needToProcess := true } with hs1
  have hc := scheduleRefreshInternal_cache s1
  refine ⟨?_, ?_, ?_, ?_, ?_⟩
  · rw [hc.1]
    simp [hs1]
  · rw [hc.2]
  · intro B hB
    rw [hc.1]
    simp [hs1, hB]
  · unfold scheduleRefreshInternal
    rcases hs : s1.renderFrame with _ | t <;> rfl
  · unfold scheduleRefreshInternal
    rcases hs : s1.renderFrame with _ | t <;> rfl

/-- A resolved display-data record with every default filled in. -/
def stubNodeData : NodeData :=
  { x := JsVal.num 0
    y := JsVal.num 0
    color := JsVal.str "#999"
    label := none
    size := JsVal.num 2
    hidden := JsVal.boolean false
    highlighted := JsVal.boolean false
    forceLabel := JsVal.boolean false
    type := JsVal.str "circle"
    zIndex := JsVal.num 0 }

/-- A concrete renderer state caching nodes `A` and `B`, hovering `A`. -/
def sigmaStateC7 : SigmaState :=
  { nodeDataCache := fun k =>
      if k = "A" ∨ k = "B" then some stubNodeData else none
    hoveredNode := some "A" }

/-- Witness for C7: dropping `A` clears `A`'s entry and the hovered
reference while `B`'s entry survives unchanged. -/
theorem dropNode_targets_only_dropped_witness :
    (dropNodeGraphUpdate sigmaStateC7 "A").1.nodeDataCache "A" = none
    ∧ ((dropNodeGraphUpdate sigmaStateC7 "A").1.hoveredNode =
        if sigmaStateC7.hoveredNode = some "A" then none
        else sigmaStateC7.hoveredNode)
    ∧ (dropNodeGraphUpdate sigmaStateC7 "A").1.nodeDataCache "B" =
        sigmaStateC7.nodeDataCache "B" :=
  ⟨(dropNode_targets_only_dropped sigmaStateC7 "A").1,
   (dropNode_targets_only_dropped sigmaStateC7 "A").2.1,
   (dropNode_targets_only_dropped sigmaStateC7 "A").2.2.1 "B" (by decide)⟩

end NG
